import Mathlib

/-!
Shallow embedding of the news-collection ingestion pipeline
(`src/news_collection/collector.py`, `src/news_collection/database.py`,
`src/news_collection/image_handler_old.py`).

Modelling conventions:
* A Telethon message is a `Message`: its `text` is `Option String`
  (Python `None` vs a string), its `date` a natural-number timestamp,
  its `media` either nothing, a photo (carrying the platform file id),
  or some other media, and `fwd_from` the optional forward descriptor.
* The relational store is a `DB`: lists of channel, message and image
  rows in insertion order.  `INSERT ... ON CONFLICT ... DO NOTHING`
  becomes an append guarded by a key-existence check; `SELECT ... LIMIT 1`
  becomes `List.find?` over insertion order.
* External effects are an `Env`: `hashFn` stands for the MD5 fingerprint
  `Database.calculate_text_hash` (kept abstract; the claims only need it
  to be a function of the text), and `fetch` stands for the outcome of
  `ImageHandler.download_and_compress_photo` for a given file id — that
  Python function catches every internal exception and returns `None` on
  failure, so its outcome is modelled as `Option ImageData`.
* An exception raised by the platform iterator while scanning a channel
  is modelled by `ChannelStream.ok = false`: `msgs` is the prefix of the
  stream that was yielded and fully processed before the exception.
-/

/-- Exclusion rule row (`exclusion_rules` table): pattern, rule kind
(`"exact"` or `"contains"`), case-sensitivity flag. -/
structure ExclusionRule where
  pattern : String
  rule_type : String
  is_case_sensitive : Bool
deriving DecidableEq

/-- Media attached to a message: none, a photo with its platform file id
(`isinstance(message.media, MessageMediaPhoto)` in the source), or any
other media (video/file). -/
inductive Media where
  | nothing : Media
  | photo (file_id : Nat) : Media
  | other : Media
deriving DecidableEq

/-- Forward descriptor (`message.fwd_from`): best-effort optional origin
channel id (present only when `from_id` is a `PeerChannel` and extraction
succeeds) and optional origin post id (`channel_post`). -/
structure FwdFrom where
  from_channel_id : Option Int
  channel_post : Option Nat
deriving DecidableEq

/-- A platform post as consumed by the collector. -/
structure Message where
  id : Nat
  text : Option String
  date : Nat
  media : Media
  fwd_from : Option FwdFrom
  grouped_id : Option Nat
deriving DecidableEq

/-- `has_photo` from `collector.py`: true exactly for photo media. -/
def has_photo (m : Media) : Bool :=
  match m with
  | Media.photo _ => true
  | _ => false

/-- Python truthiness of `message.media`: any media present. -/
def media_present (m : Media) : Bool :=
  match m with
  | Media.nothing => false
  | _ => true

/-- Collector configuration: the configured minimum text length
(`Config.MIN_TEXT_LENGTH`). -/
structure Config where
  MIN_TEXT_LENGTH : Nat
deriving DecidableEq

/-- Persisted message row (`messages` table). -/
structure MessageRecord where
  channel_id : Int
  message_id : Nat
  message_text : Option String
  message_datetime : Nat
  has_media : Bool
  is_duplicate : Bool
  is_forwarded : Bool
  duplicate_of_channel_id : Option Int
  duplicate_of_message_id : Option Nat
  forward_from_channel_id : Option Int
  forward_from_message_id : Option Nat
  text_hash : Option String
  grouped_id : Option Nat
deriving DecidableEq

/-- Persisted image row (`images` table). -/
structure ImageRecord where
  message_channel_id : Int
  message_message_id : Nat
  file_id : Nat
  file_path : String
  original_size : Nat
  compressed_size : Nat
  width : Nat
  height : Nat
deriving DecidableEq

/-- Channel row (`channels` table): id, handle, nullable watermark. -/
structure ChannelRecord where
  telegram_channel_id : Int
  name : String
  last_fetched_datetime : Option Nat
deriving DecidableEq

/-- The relational store: rows in insertion order. -/
structure DB where
  channels : List ChannelRecord
  messages : List MessageRecord
  images : List ImageRecord
deriving DecidableEq

/-- Result of `ImageHandler.download_and_compress_photo` on success. -/
structure ImageData where
  file_path : String
  original_size : Nat
  compressed_size : Nat
  width : Nat
  height : Nat
deriving DecidableEq

/-- External effects: the text fingerprint (`calculate_text_hash`, MD5 in
the source) and the asset pipeline outcome per file id
(`download_and_compress_photo`; `none` = download/decode failure, which
the Python function reports by returning `None` instead of raising). -/
structure Env where
  hashFn : String → String
  fetch : Nat → Option ImageData

/-- `Database.should_exclude_message`: scan the rules in order; `exact`
compares (case-folded unless case-sensitive) text to pattern, `contains`
checks substring containment (Python `in`). -/
def should_exclude_message (message_text : String) (rules : List ExclusionRule) : Bool :=
  rules.any (fun rule =>
    let text_to_check := if rule.is_case_sensitive then message_text else message_text.toLower
    let pattern_to_check := if rule.is_case_sensitive then rule.pattern else rule.pattern.toLower
    if rule.rule_type = "exact" then
      text_to_check = pattern_to_check
    else if rule.rule_type = "contains" then
      decide (pattern_to_check.data <:+: text_to_check.data)
    else
      false)

/-- `NewsCollector.should_collect_message`: the Rule Evaluator.
Mirrors the source decision cascade: exclusion rules are consulted only
for non-empty text (`if message_text and ...`), then photo always
collects, then non-photo media and text-only posts are gated by
`MIN_TEXT_LENGTH`. -/
def should_collect_message (cfg : Config) (rules : List ExclusionRule)
    (message : Message) : Bool × String :=
  let message_has_photo := has_photo message.media
  let message_text := message.text.getD ""
  let text_length := message_text.length
  if message_text ≠ "" ∧ should_exclude_message message_text rules then
    (false, "matched exclusion rule")
  else if message_has_photo then
    (true, "has photo")
  else if media_present message.media then
    if text_length < cfg.MIN_TEXT_LENGTH then
      (false, "has media but text too short")
    else
      (true, "has media with sufficient text")
  else if text_length < cfg.MIN_TEXT_LENGTH then
    (false, "text too short")
  else
    (true, "text message with sufficient length")

/-- `Database.find_duplicate`: first stored row with the given fingerprint
whose `is_duplicate` flag is clear, returned as (channel id, message id). -/
def find_duplicate (db : DB) (text_hash : String) : Option (Int × Nat) :=
  (db.messages.find? (fun m =>
      decide (m.text_hash = some text_hash ∧ m.is_duplicate = false))).map
    (fun m => (m.channel_id, m.message_id))

/-- Existence check on the `(channel_id, message_id)` primary key. -/
def message_key_exists (db : DB) (cid : Int) (mid : Nat) : Bool :=
  db.messages.any (fun r => decide (r.channel_id = cid ∧ r.message_id = mid))

/-- `Database.insert_message`: `INSERT ... ON CONFLICT (channel_id,
message_id) DO NOTHING`. -/
def insert_message (db : DB) (r : MessageRecord) : DB :=
  if message_key_exists db r.channel_id r.message_id then db
  else { db with messages := db.messages ++ [r] }

/-- `Database.image_exists`: existence check on the `file_id` key. -/
def image_exists (db : DB) (file_id : Nat) : Bool :=
  db.images.any (fun i => decide (i.file_id = file_id))

/-- `Database.insert_image`: `INSERT ... ON CONFLICT (file_id) DO
NOTHING`. -/
def insert_image (db : DB) (r : ImageRecord) : DB :=
  if image_exists db r.file_id then db
  else { db with images := db.images ++ [r] }

/-- `Database.update_channel_last_fetched`: `UPDATE channels SET
last_fetched_datetime = $1 WHERE telegram_channel_id = $2`. -/
def update_channel_last_fetched (db : DB) (channel_id : Int) (dt : Nat) : DB :=
  { db with channels := db.channels.map (fun c =>
      if c.telegram_channel_id = channel_id then
        { c with last_fetched_datetime := some dt }
      else c) }

/-- The message row built by `NewsCollector.process_message` for a post
that passed the Rule Evaluator: forward handling (text discarded, no
fingerprint, best-effort origin), then duplicate detection for
non-forward posts with non-empty text (fingerprint computed and, if an
original with the same fingerprint exists, duplicate marking with the
text discarded — the fingerprint itself is kept in the row). -/
def build_record (env : Env) (db : DB) (message : Message) (channel_id : Int) :
    MessageRecord :=
  let s := message.text.getD ""
  let is_forwarded := message.fwd_from.isSome
  let compute := is_forwarded = false ∧ s ≠ ""
  let text_hash : Option String := if compute then some (env.hashFn s) else none
  let dup : Option (Int × Nat) :=
    if compute then find_duplicate db (env.hashFn s) else none
  { channel_id := channel_id
    message_id := message.id
    message_text := if is_forwarded || dup.isSome then none else some s
    message_datetime := message.date
    has_media := has_photo message.media
    is_duplicate := dup.isSome
    is_forwarded := is_forwarded
    duplicate_of_channel_id := dup.map (fun p => p.1)
    duplicate_of_message_id := dup.map (fun p => p.2)
    forward_from_channel_id := (message.fwd_from).bind (fun f => f.from_channel_id)
    forward_from_message_id := (message.fwd_from).bind (fun f => f.channel_post)
    text_hash := text_hash
    grouped_id := match message.grouped_id with
      | some g => if g = 0 then none else some g
      | none => none }

/-- `NewsCollector.process_single_photo`: skip when an image row with the
file id already exists; otherwise invoke the asset pipeline (recorded in
the returned list of fetched file ids) and insert the image row on
success.  A failed fetch inserts nothing. -/
def process_single_photo (env : Env) (db : DB) (message : Message)
    (channel_id : Int) : DB × List Nat :=
  match message.media with
  | Media.photo file_id =>
    if image_exists db file_id then (db, [])
    else
      match env.fetch file_id with
      | some d =>
        (insert_image db
          { message_channel_id := channel_id
            message_message_id := message.id
            file_id := file_id
            file_path := d.file_path
            original_size := d.original_size
            compressed_size := d.compressed_size
            width := d.width
            height := d.height }, [file_id])
      | none => (db, [file_id])
  | _ => (db, [])

/-- `NewsCollector.process_message`: classify, build the row, insert the
row first, then (photo present and not a forward) run the photo path.
Returns the new store, the `message_data` produced (`none` when the post
was dropped by the Rule Evaluator), and the file ids for which the asset
pipeline was invoked. -/
def process_message (cfg : Config) (rules : List ExclusionRule) (env : Env)
    (db : DB) (message : Message) (channel_id : Int) :
    DB × Option MessageRecord × List Nat :=
  if (should_collect_message cfg rules message).1 then
    let r := build_record env db message channel_id
    let db1 := insert_message db r
    if has_photo message.media && !message.fwd_from.isSome then
      let pr := process_single_photo env db1 message channel_id
      (pr.1, some r, pr.2)
    else
      (db1, some r, [])
  else
    (db, none, [])

/-- Per-channel loop state of `NewsCollector.process_channel`. -/
structure LoopState where
  db : DB
  latest_message_time : Option Nat
  processed_count : Nat
  collected_count : Nat
  fetched : List Nat
deriving DecidableEq

/-- One iteration of the per-channel message loop. -/
def process_step (cfg : Config) (rules : List ExclusionRule) (env : Env)
    (channel_id : Int) (st : LoopState) (message : Message) : LoopState :=
  let out := process_message cfg rules env st.db message channel_id
  { db := out.1
    latest_message_time :=
      match out.2.1 with
      | some r => some r.message_datetime
      | none => st.latest_message_time
    processed_count := st.processed_count + 1
    collected_count := st.collected_count + (if (out.2.1).isSome then 1 else 0)
    fetched := st.fetched ++ out.2.2 }

/-- The per-channel message loop (`async for message in iter_messages`). -/
def process_loop (cfg : Config) (rules : List ExclusionRule) (env : Env)
    (channel_id : Int) (st : LoopState) (msgs : List Message) : LoopState :=
  msgs.foldl (process_step cfg rules env channel_id) st

/-- Initial loop state for a channel pass over store `db`. -/
def initState (db : DB) : LoopState :=
  { db := db, latest_message_time := none, processed_count := 0
    collected_count := 0, fetched := [] }

/-- A channel's yielded post stream: `msgs` is the prefix of the stream
that was yielded and processed; `ok = false` means the iterator (or the
body) raised after that prefix, which `process_channel` catches. -/
structure ChannelStream where
  msgs : List Message
  ok : Bool
deriving DecidableEq

/-- Outcome of one channel pass: final store, the watermark updates
performed (as (channel id, timestamp) pairs), and the final loop state. -/
structure PassOut where
  db : DB
  watermark_updates : List (Int × Nat)
  state : LoopState
deriving DecidableEq

/-- `NewsCollector.process_channel`: run the loop over the yielded
stream; if no exception occurred and some post was collected, advance the
watermark once to the last collected post's timestamp.  An exception
(`ok = false`) is caught: no watermark update, the store keeps whatever
the processed prefix persisted. -/
def process_channel (cfg : Config) (rules : List ExclusionRule) (env : Env)
    (db : DB) (channel_id : Int) (stream : ChannelStream) : PassOut :=
  let st := process_loop cfg rules env channel_id (initState db) stream.msgs
  if stream.ok then
    match st.latest_message_time with
    | some t =>
      { db := update_channel_last_fetched st.db channel_id t
        watermark_updates := [(channel_id, t)]
        state := st }
    | none => { db := st.db, watermark_updates := [], state := st }
  else
    { db := st.db, watermark_updates := [], state := st }

/-- `NewsCollector.run`, restricted to the per-channel loop: process each
channel pass sequentially; `process_channel` never raises (it catches
channel-level errors), so every channel in the list is processed. -/
def run_channels (cfg : Config) (rules : List ExclusionRule) (env : Env)
    (db : DB) (passes : List (Int × ChannelStream)) : DB :=
  passes.foldl (fun d p => (process_channel cfg rules env d p.1 p.2).db) db


/-- Shorthand for the Rule Evaluator's collect decision. -/
def collects (cfg : Config) (rules : List ExclusionRule) (m : Message) : Bool :=
  (should_collect_message cfg rules m).1

/-- Lookup of a message row by its `(channel_id, message_id)` primary
key, in insertion order (first row wins, as for a unique key). -/
def lookup_message (db : DB) (cid : Int) (mid : Nat) : Option MessageRecord :=
  db.messages.find? (fun r => decide (r.channel_id = cid ∧ r.message_id = mid))

/-- No stored row could serve as a duplicate original for fingerprint
`h`: the store holds no non-duplicate row with that fingerprint. -/
def no_original_with_hash (db : DB) (h : String) : Prop :=
  ∀ r ∈ db.messages, ¬(r.text_hash = some h ∧ r.is_duplicate = false)

/-- Intrinsic fingerprint-presence shape of a persisted row: the
fingerprint is present exactly for non-forward rows that either store
non-empty text or are marked duplicate (i.e. had non-empty original
text). -/
def fingerprint_invariant (r : MessageRecord) : Prop :=
  r.text_hash.isSome = true ↔
    (r.is_forwarded = false ∧
      ((r.message_text ≠ none ∧ r.message_text ≠ some "") ∨ r.is_duplicate = true))

/-- The `latest_message_time` bookkeeping of the channel loop, computed
directly over the message stream: timestamp of the last message the Rule
Evaluator collects, `init` if none is collected. -/
def last_collected_time (cfg : Config) (rules : List ExclusionRule)
    (msgs : List Message) (init : Option Nat) : Option Nat :=
  msgs.foldl
    (fun acc m => if (should_collect_message cfg rules m).1 then some m.date else acc)
    init

theorem insert_message_channels (db : DB) (r : MessageRecord) :
    (insert_message db r).channels = db.channels := by
  unfold insert_message; split <;> rfl

theorem insert_message_images (db : DB) (r : MessageRecord) :
    (insert_message db r).images = db.images := by
  unfold insert_message; split <;> rfl

theorem insert_message_messages (db : DB) (r : MessageRecord) :
    (insert_message db r).messages = db.messages ∨
      (insert_message db r).messages = db.messages ++ [r] := by
  unfold insert_message; split
  · exact Or.inl rfl
  · exact Or.inr rfl

theorem insert_message_of_key (db : DB) (r : MessageRecord)
    (h : message_key_exists db r.channel_id r.message_id = true) :
    insert_message db r = db := by
  unfold insert_message; simp [h]

theorem insert_message_of_fresh (db : DB) (r : MessageRecord)
    (h : message_key_exists db r.channel_id r.message_id = false) :
    insert_message db r = { db with messages := db.messages ++ [r] } := by
  unfold insert_message; simp [h]

theorem insert_image_channels (db : DB) (r : ImageRecord) :
    (insert_image db r).channels = db.channels := by
  unfold insert_image; split <;> rfl

theorem insert_image_messages (db : DB) (r : ImageRecord) :
    (insert_image db r).messages = db.messages := by
  unfold insert_image; split <;> rfl

theorem insert_image_images (db : DB) (r : ImageRecord) :
    (insert_image db r).images = db.images ∨
      (insert_image db r).images = db.images ++ [r] := by
  unfold insert_image; split
  · exact Or.inl rfl
  · exact Or.inr rfl

theorem insert_image_of_exists (db : DB) (r : ImageRecord)
    (h : image_exists db r.file_id = true) :
    insert_image db r = db := by
  unfold insert_image; simp [h]

theorem update_channel_messages (db : DB) (cid : Int) (dt : Nat) :
    (update_channel_last_fetched db cid dt).messages = db.messages := rfl

theorem update_channel_images (db : DB) (cid : Int) (dt : Nat) :
    (update_channel_last_fetched db cid dt).images = db.images := rfl

theorem psp_messages (env : Env) (db : DB) (m : Message) (cid : Int) :
    (process_single_photo env db m cid).1.messages = db.messages := by
  unfold process_single_photo
  cases m.media with
  | nothing => rfl
  | photo fid =>
    simp only []
    split
    · rfl
    · split
      · exact insert_image_messages ..
      · rfl
  | other => rfl

theorem psp_channels (env : Env) (db : DB) (m : Message) (cid : Int) :
    (process_single_photo env db m cid).1.channels = db.channels := by
  unfold process_single_photo
  cases m.media with
  | nothing => rfl
  | photo fid =>
    simp only []
    split
    · rfl
    · split
      · exact insert_image_channels ..
      · rfl
  | other => rfl

theorem psp_images (env : Env) (db : DB) (m : Message) (cid : Int) :
    (process_single_photo env db m cid).1.images = db.images ∨
      ∃ r : ImageRecord, (process_single_photo env db m cid).1.images = db.images ++ [r] := by
  unfold process_single_photo
  cases m.media with
  | nothing => exact Or.inl rfl
  | photo fid =>
    simp only []
    split
    · exact Or.inl rfl
    · split
      · rcases insert_image_images db _ with h | h
        · exact Or.inl h
        · exact Or.inr ⟨_, h⟩
      · exact Or.inl rfl
  | other => exact Or.inl rfl

theorem pm_not_collected (cfg : Config) (rules : List ExclusionRule) (env : Env)
    (db : DB) (m : Message) (cid : Int)
    (h : (should_collect_message cfg rules m).1 = false) :
    process_message cfg rules env db m cid = (db, none, []) := by
  unfold process_message; simp [h]

theorem pm_data (cfg : Config) (rules : List ExclusionRule) (env : Env)
    (db : DB) (m : Message) (cid : Int) :
    (process_message cfg rules env db m cid).2.1 =
      if (should_collect_message cfg rules m).1 then
        some (build_record env db m cid)
      else none := by
  unfold process_message
  split
  · split <;> rfl
  · rfl

theorem pm_channels (cfg : Config) (rules : List ExclusionRule) (env : Env)
    (db : DB) (m : Message) (cid : Int) :
    (process_message cfg rules env db m cid).1.channels = db.channels := by
  unfold process_message
  split
  · split
    · rw [psp_channels, insert_message_channels]
    · exact insert_message_channels ..
  · rfl

theorem pm_messages (cfg : Config) (rules : List ExclusionRule) (env : Env)
    (db : DB) (m : Message) (cid : Int) :
    (process_message cfg rules env db m cid).1.messages =
      if (should_collect_message cfg rules m).1 then
        (insert_message db (build_record env db m cid)).messages
      else db.messages := by
  unfold process_message
  split
  · split
    · simp [psp_messages]
    · rfl
  · rfl

theorem pm_messages_cases (cfg : Config) (rules : List ExclusionRule) (env : Env)
    (db : DB) (m : Message) (cid : Int) :
    (process_message cfg rules env db m cid).1.messages = db.messages ∨
      (process_message cfg rules env db m cid).1.messages =
        db.messages ++ [build_record env db m cid] := by
  rw [pm_messages]
  split
  · exact insert_message_messages ..
  · exact Or.inl rfl

theorem pm_messages_append (cfg : Config) (rules : List ExclusionRule) (env : Env)
    (db : DB) (m : Message) (cid : Int) :
    ∃ t, (process_message cfg rules env db m cid).1.messages = db.messages ++ t := by
  rcases pm_messages_cases cfg rules env db m cid with h | h
  · exact ⟨[], by simp [h]⟩
  · exact ⟨_, h⟩

theorem pm_images_append (cfg : Config) (rules : List ExclusionRule) (env : Env)
    (db : DB) (m : Message) (cid : Int) :
    ∃ t, (process_message cfg rules env db m cid).1.images = db.images ++ t := by
  unfold process_message
  split
  · split
    · rcases psp_images env (insert_message db (build_record env db m cid)) m cid with h | ⟨r, h⟩
      · exact ⟨[], by simp [h, insert_message_images]⟩
      · exact ⟨[r], by simp [h, insert_message_images]⟩
    · exact ⟨[], by simp [insert_message_images]⟩
  · exact ⟨[], by simp⟩

theorem loop_nil (cfg : Config) (rules : List ExclusionRule) (env : Env)
    (cid : Int) (st : LoopState) :
    process_loop cfg rules env cid st [] = st := rfl

theorem loop_cons (cfg : Config) (rules : List ExclusionRule) (env : Env)
    (cid : Int) (st : LoopState) (m : Message) (ms : List Message) :
    process_loop cfg rules env cid st (m :: ms) =
      process_loop cfg rules env cid (process_step cfg rules env cid st m) ms := rfl

theorem loop_append (cfg : Config) (rules : List ExclusionRule) (env : Env)
    (cid : Int) (st : LoopState) (l₁ l₂ : List Message) :
    process_loop cfg rules env cid st (l₁ ++ l₂) =
      process_loop cfg rules env cid (process_loop cfg rules env cid st l₁) l₂ :=
  List.foldl_append ..

theorem step_db (cfg : Config) (rules : List ExclusionRule) (env : Env)
    (cid : Int) (st : LoopState) (m : Message) :
    (process_step cfg rules env cid st m).db =
      (process_message cfg rules env st.db m cid).1 := rfl

theorem step_channels (cfg : Config) (rules : List ExclusionRule) (env : Env)
    (cid : Int) (st : LoopState) (m : Message) :
    (process_step cfg rules env cid st m).db.channels = st.db.channels := by
  rw [step_db]; exact pm_channels ..

theorem loop_channels (cfg : Config) (rules : List ExclusionRule) (env : Env)
    (cid : Int) (st : LoopState) (msgs : List Message) :
    (process_loop cfg rules env cid st msgs).db.channels = st.db.channels := by
  induction msgs generalizing st with
  | nil => rfl
  | cons m ms ih => rw [loop_cons, ih, step_channels]

theorem loop_messages_append (cfg : Config) (rules : List ExclusionRule) (env : Env)
    (cid : Int) (st : LoopState) (msgs : List Message) :
    ∃ t, (process_loop cfg rules env cid st msgs).db.messages = st.db.messages ++ t := by
  induction msgs generalizing st with
  | nil => exact ⟨[], by simp [loop_nil]⟩
  | cons m ms ih =>
    rw [loop_cons]
    rcases ih (process_step cfg rules env cid st m) with ⟨t, ht⟩
    rcases pm_messages_append cfg rules env st.db m cid with ⟨t₀, ht₀⟩
    exact ⟨t₀ ++ t, by rw [ht, step_db, ht₀, List.append_assoc]⟩

theorem loop_images_append (cfg : Config) (rules : List ExclusionRule) (env : Env)
    (cid : Int) (st : LoopState) (msgs : List Message) :
    ∃ t, (process_loop cfg rules env cid st msgs).db.images = st.db.images ++ t := by
  induction msgs generalizing st with
  | nil => exact ⟨[], by simp [loop_nil]⟩
  | cons m ms ih =>
    rw [loop_cons]
    rcases ih (process_step cfg rules env cid st m) with ⟨t, ht⟩
    rcases pm_images_append cfg rules env st.db m cid with ⟨t₀, ht₀⟩
    exact ⟨t₀ ++ t, by rw [ht, step_db, ht₀, List.append_assoc]⟩

theorem pass_messages (cfg : Config) (rules : List ExclusionRule) (env : Env)
    (db : DB) (cid : Int) (stream : ChannelStream) :
    (process_channel cfg rules env db cid stream).db.messages =
      (process_loop cfg rules env cid (initState db) stream.msgs).db.messages := by
  unfold process_channel
  split
  · dsimp only
    split <;> simp [update_channel_messages]
  · rfl

theorem pass_images (cfg : Config) (rules : List ExclusionRule) (env : Env)
    (db : DB) (cid : Int) (stream : ChannelStream) :
    (process_channel cfg rules env db cid stream).db.images =
      (process_loop cfg rules env cid (initState db) stream.msgs).db.images := by
  unfold process_channel
  split
  · dsimp only
    split <;> simp [update_channel_images]
  · rfl

theorem build_record_channel_id (env : Env) (db : DB) (m : Message) (cid : Int) :
    (build_record env db m cid).channel_id = cid := rfl

theorem build_record_message_id (env : Env) (db : DB) (m : Message) (cid : Int) :
    (build_record env db m cid).message_id = m.id := rfl

theorem build_record_datetime (env : Env) (db : DB) (m : Message) (cid : Int) :
    (build_record env db m cid).message_datetime = m.date := rfl

theorem build_record_forward (env : Env) (db : DB) (m : Message) (cid : Int)
    (f : FwdFrom) (hf : m.fwd_from = some f) :
    (build_record env db m cid).message_text = none ∧
    (build_record env db m cid).text_hash = none ∧
    (build_record env db m cid).is_forwarded = true ∧
    (build_record env db m cid).is_duplicate = false ∧
    (build_record env db m cid).forward_from_channel_id = f.from_channel_id ∧
    (build_record env db m cid).forward_from_message_id = f.channel_post := by
  unfold build_record
  simp [hf]

theorem build_record_original (env : Env) (db : DB) (m : Message) (cid : Int)
    (t : String) (hf : m.fwd_from = none) (ht : m.text = some t) (hne : t ≠ "")
    (hd : find_duplicate db (env.hashFn t) = none) :
    (build_record env db m cid).message_text = some t ∧
    (build_record env db m cid).text_hash = some (env.hashFn t) ∧
    (build_record env db m cid).is_duplicate = false ∧
    (build_record env db m cid).is_forwarded = false ∧
    (build_record env db m cid).duplicate_of_channel_id = none ∧
    (build_record env db m cid).duplicate_of_message_id = none := by
  unfold build_record
  simp [hf, ht, hne, hd]

theorem build_record_duplicate (env : Env) (db : DB) (m : Message) (cid : Int)
    (t : String) (dc : Int) (dm : Nat)
    (hf : m.fwd_from = none) (ht : m.text = some t) (hne : t ≠ "")
    (hd : find_duplicate db (env.hashFn t) = some (dc, dm)) :
    (build_record env db m cid).message_text = none ∧
    (build_record env db m cid).text_hash = some (env.hashFn t) ∧
    (build_record env db m cid).is_duplicate = true ∧
    (build_record env db m cid).is_forwarded = false ∧
    (build_record env db m cid).duplicate_of_channel_id = some dc ∧
    (build_record env db m cid).duplicate_of_message_id = some dm := by
  unfold build_record
  simp [hf, ht, hne, hd]

theorem build_record_hash_cases (env : Env) (db : DB) (m : Message) (cid : Int) :
    (build_record env db m cid).text_hash = none ∨
      (m.fwd_from = none ∧ m.text.getD "" ≠ "" ∧
        (build_record env db m cid).text_hash =
          some (env.hashFn (m.text.getD ""))) := by
  unfold build_record
  by_cases hc : m.fwd_from.isSome = false ∧ m.text.getD "" ≠ ""
  · right
    refine ⟨Option.not_isSome_iff_eq_none.mp (by simp [hc.1]), hc.2, ?_⟩
    simp [hc]
  · left
    simp only [build_record]
    rw [if_neg hc]

theorem build_record_satisfies_invariant (env : Env) (db : DB) (m : Message) (cid : Int) :
    fingerprint_invariant (build_record env db m cid) := by
  unfold fingerprint_invariant build_record
  cases hf : m.fwd_from with
  | some f => simp [hf]
  | none =>
    by_cases hs : m.text.getD "" = ""
    · simp [hs]
    · cases hd : find_duplicate db (env.hashFn (m.text.getD "")) with
      | some p => simp [hs, hd]
      | none => simp [hs, hd]

theorem message_key_exists_mono {db db' : DB} {cid : Int} {mid : Nat} (t : List MessageRecord)
    (h : db'.messages = db.messages ++ t)
    (hk : message_key_exists db cid mid = true) :
    message_key_exists db' cid mid = true := by
  unfold message_key_exists at *
  rw [h, List.any_append, hk]
  rfl

theorem image_exists_mono {db db' : DB} {fid : Nat} (t : List ImageRecord)
    (h : db'.images = db.images ++ t)
    (hk : image_exists db fid = true) :
    image_exists db' fid = true := by
  unfold image_exists at *
  rw [h, List.any_append, hk]
  rfl

theorem lookup_message_mono {db db' : DB} {cid : Int} {mid : Nat} {r : MessageRecord}
    (t : List MessageRecord) (h : db'.messages = db.messages ++ t)
    (hl : lookup_message db cid mid = some r) :
    lookup_message db' cid mid = some r := by
  unfold lookup_message at *
  rw [h, List.find?_append, hl]
  rfl

theorem find_duplicate_mono {db db' : DB} {hsh : String} {p : Int × Nat}
    (t : List MessageRecord) (h : db'.messages = db.messages ++ t)
    (hf : find_duplicate db hsh = some p) :
    find_duplicate db' hsh = some p := by
  unfold find_duplicate at *
  cases hfind : db.messages.find?
      (fun m => decide (m.text_hash = some hsh ∧ m.is_duplicate = false)) with
  | none => rw [hfind] at hf; exact absurd hf (by simp)
  | some rec0 =>
    rw [hfind] at hf
    rw [h, List.find?_append, hfind]
    exact hf

theorem find_duplicate_of_no_original {db : DB} {h : String}
    (hno : no_original_with_hash db h) :
    find_duplicate db h = none := by
  unfold find_duplicate
  rw [List.find?_eq_none.mpr]
  · rfl
  · intro r hr
    simp only [decide_eq_true_eq]
    exact hno r hr

theorem lookup_message_of_fresh {db : DB} {cid : Int} {mid : Nat}
    (h : message_key_exists db cid mid = false) :
    lookup_message db cid mid = none := by
  unfold message_key_exists at h
  unfold lookup_message
  rw [List.find?_eq_none]
  intro r hr hp
  have : db.messages.any
      (fun r => decide (r.channel_id = cid ∧ r.message_id = mid)) = true :=
    List.any_eq_true.mpr ⟨r, hr, hp⟩
  rw [h] at this
  exact Bool.false_ne_true this

theorem lookup_message_append_self {db db' : DB} (r : MessageRecord)
    (h : db'.messages = db.messages ++ [r])
    (hf : message_key_exists db r.channel_id r.message_id = false) :
    lookup_message db' r.channel_id r.message_id = some r := by
  have hn := lookup_message_of_fresh hf
  unfold lookup_message at *
  rw [h, List.find?_append, hn]
  simp

theorem no_original_of_messages_eq {db db' : DB} {h : String}
    (hm : db'.messages = db.messages)
    (hno : no_original_with_hash db h) :
    no_original_with_hash db' h := by
  intro r hr
  rw [hm] at hr
  exact hno r hr

theorem step_preserves_no_original (cfg : Config) (rules : List ExclusionRule)
    (env : Env) (cid : Int) (h : String) (st : LoopState) (m : Message)
    (hm : m.fwd_from = none → m.text.getD "" ≠ "" →
      env.hashFn (m.text.getD "") ≠ h)
    (hno : no_original_with_hash st.db h) :
    no_original_with_hash (process_step cfg rules env cid st m).db h := by
  rw [step_db]
  rcases pm_messages_cases cfg rules env st.db m cid with hc | hc
  · intro r hr
    rw [hc] at hr
    exact hno r hr
  · intro r hr
    rw [hc] at hr
    rcases List.mem_append.mp hr with hr | hr
    · exact hno r hr
    · have hb : r = build_record env st.db m cid := List.mem_singleton.mp hr
      subst hb
      rcases build_record_hash_cases env st.db m cid with hh | ⟨hf, hs, hh⟩
      · rw [hh]; rintro ⟨h1, -⟩; exact Option.noConfusion h1
      · rw [hh]
        rintro ⟨h1, -⟩
        exact hm hf hs (Option.some.inj h1)

theorem loop_preserves_no_original (cfg : Config) (rules : List ExclusionRule)
    (env : Env) (cid : Int) (h : String) (st : LoopState) (msgs : List Message)
    (hm : ∀ m ∈ msgs, m.fwd_from = none → m.text.getD "" ≠ "" →
      env.hashFn (m.text.getD "") ≠ h)
    (hno : no_original_with_hash st.db h) :
    no_original_with_hash (process_loop cfg rules env cid st msgs).db h := by
  induction msgs generalizing st with
  | nil => exact hno
  | cons m ms ih =>
    rw [loop_cons]
    exact ih _ (fun x hx => hm x (List.mem_cons_of_mem m hx))
      (step_preserves_no_original cfg rules env cid h st m
        (hm m (List.mem_cons_self m ms)) hno)

theorem step_preserves_fresh (cfg : Config) (rules : List ExclusionRule)
    (env : Env) (cid : Int) (cid0 : Int) (mid0 : Nat) (st : LoopState) (m : Message)
    (hm : ¬(cid = cid0 ∧ m.id = mid0))
    (hf : message_key_exists st.db cid0 mid0 = false) :
    message_key_exists (process_step cfg rules env cid st m).db cid0 mid0 = false := by
  rw [step_db]
  rcases pm_messages_cases cfg rules env st.db m cid with hc | hc
  · unfold message_key_exists at *
    rw [hc]
    exact hf
  · unfold message_key_exists at *
    rw [hc, List.any_append, hf]
    simp only [Bool.false_or, List.any_cons, List.any_nil, Bool.or_false,
      build_record_channel_id, build_record_message_id, decide_eq_true_eq]
    exact decide_eq_false hm

theorem loop_preserves_fresh (cfg : Config) (rules : List ExclusionRule)
    (env : Env) (cid : Int) (cid0 : Int) (mid0 : Nat) (st : LoopState)
    (msgs : List Message)
    (hm : ∀ m ∈ msgs, ¬(cid = cid0 ∧ m.id = mid0))
    (hf : message_key_exists st.db cid0 mid0 = false) :
    message_key_exists (process_loop cfg rules env cid st msgs).db cid0 mid0 = false := by
  induction msgs generalizing st with
  | nil => exact hf
  | cons m ms ih =>
    rw [loop_cons]
    exact ih _ (fun x hx => hm x (List.mem_cons_of_mem m hx))
      (step_preserves_fresh cfg rules env cid cid0 mid0 st m
        (hm m (List.mem_cons_self m ms)) hf)

theorem loop_lookup_stable (cfg : Config) (rules : List ExclusionRule)
    (env : Env) (cid : Int) (st : LoopState) (msgs : List Message)
    {cid0 : Int} {mid0 : Nat} {r : MessageRecord}
    (hl : lookup_message st.db cid0 mid0 = some r) :
    lookup_message (process_loop cfg rules env cid st msgs).db cid0 mid0 = some r := by
  rcases loop_messages_append cfg rules env cid st msgs with ⟨t, ht⟩
  exact lookup_message_mono t ht hl

theorem loop_find_duplicate_stable (cfg : Config) (rules : List ExclusionRule)
    (env : Env) (cid : Int) (st : LoopState) (msgs : List Message)
    {hsh : String} {p : Int × Nat}
    (hl : find_duplicate st.db hsh = some p) :
    find_duplicate (process_loop cfg rules env cid st msgs).db hsh = some p := by
  rcases loop_messages_append cfg rules env cid st msgs with ⟨t, ht⟩
  exact find_duplicate_mono t ht hl

theorem step_latest (cfg : Config) (rules : List ExclusionRule) (env : Env)
    (cid : Int) (st : LoopState) (m : Message) :
    (process_step cfg rules env cid st m).latest_message_time =
      if (should_collect_message cfg rules m).1 then some m.date
      else st.latest_message_time := by
  unfold process_step
  dsimp only
  rw [pm_data]
  by_cases hc : (should_collect_message cfg rules m).1 = true
  · simp [hc, build_record_datetime]
  · simp [hc]

theorem loop_latest (cfg : Config) (rules : List ExclusionRule) (env : Env)
    (cid : Int) (st : LoopState) (msgs : List Message) :
    (process_loop cfg rules env cid st msgs).latest_message_time =
      last_collected_time cfg rules msgs st.latest_message_time := by
  induction msgs generalizing st with
  | nil => rfl
  | cons m ms ih =>
    rw [loop_cons, ih]
    have hr : last_collected_time cfg rules (m :: ms) st.latest_message_time =
        last_collected_time cfg rules ms
          (if (should_collect_message cfg rules m).1 then some m.date
           else st.latest_message_time) := rfl
    rw [hr, step_latest]

theorem lct_append_singleton (cfg : Config) (rules : List ExclusionRule)
    (l : List Message) (a : Message) (init : Option Nat) :
    last_collected_time cfg rules (l ++ [a]) init =
      if (should_collect_message cfg rules a).1 then some a.date
      else last_collected_time cfg rules l init := by
  unfold last_collected_time
  rw [List.foldl_append]
  rfl

theorem lct_mem (cfg : Config) (rules : List ExclusionRule) (msgs : List Message)
    (init : Option Nat) (T : Nat)
    (h : last_collected_time cfg rules msgs init = some T) :
    (∃ m ∈ msgs, (should_collect_message cfg rules m).1 = true ∧ T = m.date) ∨
      init = some T := by
  induction msgs using List.reverseRecOn with
  | nil => exact Or.inr h
  | append_singleton l a ih =>
    rw [lct_append_singleton] at h
    by_cases hc : (should_collect_message cfg rules a).1 = true
    · rw [if_pos hc] at h
      exact Or.inl ⟨a, List.mem_append_right l (List.mem_singleton_self a), hc,
        (Option.some.inj h).symm⟩
    · rw [if_neg hc] at h
      rcases ih h with ⟨m, hm, hcm, hT⟩ | hinit
      · exact Or.inl ⟨m, List.mem_append_left _ hm, hcm, hT⟩
      · exact Or.inr hinit

theorem lct_max (cfg : Config) (rules : List ExclusionRule) (msgs : List Message)
    (T : Nat)
    (hs : List.Pairwise (fun a b : Message => a.date ≤ b.date) msgs)
    (h : last_collected_time cfg rules msgs none = some T) :
    ∀ m ∈ msgs, (should_collect_message cfg rules m).1 = true → m.date ≤ T := by
  induction msgs using List.reverseRecOn with
  | nil => intro m hm; cases hm
  | append_singleton l a ih =>
    rw [lct_append_singleton] at h
    rcases List.pairwise_append.mp hs with ⟨hpl, -, hla⟩
    by_cases hc : (should_collect_message cfg rules a).1 = true
    · rw [if_pos hc] at h
      have hT : T = a.date := (Option.some.inj h).symm
      intro m hm _
      rcases List.mem_append.mp hm with hm | hm
      · rw [hT]; exact hla m hm a (List.mem_singleton_self a)
      · rw [List.mem_singleton.mp hm, hT]
    · rw [if_neg hc] at h
      intro m hm hcm
      rcases List.mem_append.mp hm with hm | hm
      · exact ih hpl h m hm hcm
      · rw [List.mem_singleton.mp hm] at hcm
        exact absurd hcm hc

theorem lct_none (cfg : Config) (rules : List ExclusionRule) (msgs : List Message)
    (h : last_collected_time cfg rules msgs none = none) :
    ∀ m ∈ msgs, (should_collect_message cfg rules m).1 = false := by
  induction msgs using List.reverseRecOn with
  | nil => intro m hm; cases hm
  | append_singleton l a ih =>
    rw [lct_append_singleton] at h
    by_cases hc : (should_collect_message cfg rules a).1 = true
    · rw [if_pos hc] at h
      exact absurd h (by simp)
    · rw [if_neg hc] at h
      intro m hm
      rcases List.mem_append.mp hm with hm | hm
      · exact ih h m hm
      · rw [List.mem_singleton.mp hm]
        revert hc
        cases (should_collect_message cfg rules a).1 <;> simp

theorem update_channel_channels (db : DB) (cid : Int) (dt : Nat) :
    (update_channel_last_fetched db cid dt).channels =
      db.channels.map (fun c =>
        if c.telegram_channel_id = cid then
          { c with last_fetched_datetime := some dt }
        else c) := rfl

theorem pass_ok_some (cfg : Config) (rules : List ExclusionRule) (env : Env)
    (db : DB) (cid : Int) (msgs : List Message) (T : Nat)
    (hT : (process_loop cfg rules env cid (initState db) msgs).latest_message_time
        = some T) :
    process_channel cfg rules env db cid ⟨msgs, true⟩ =
      { db := update_channel_last_fetched
          (process_loop cfg rules env cid (initState db) msgs).db cid T
        watermark_updates := [(cid, T)]
        state := process_loop cfg rules env cid (initState db) msgs } := by
  unfold process_channel
  dsimp only
  rw [hT]
  rfl

theorem pass_ok_none (cfg : Config) (rules : List ExclusionRule) (env : Env)
    (db : DB) (cid : Int) (msgs : List Message)
    (hT : (process_loop cfg rules env cid (initState db) msgs).latest_message_time
        = none) :
    process_channel cfg rules env db cid ⟨msgs, true⟩ =
      { db := (process_loop cfg rules env cid (initState db) msgs).db
        watermark_updates := []
        state := process_loop cfg rules env cid (initState db) msgs } := by
  unfold process_channel
  dsimp only
  rw [hT]
  rfl

theorem pass_err (cfg : Config) (rules : List ExclusionRule) (env : Env)
    (db : DB) (cid : Int) (msgs : List Message) :
    process_channel cfg rules env db cid ⟨msgs, false⟩ =
      { db := (process_loop cfg rules env cid (initState db) msgs).db
        watermark_updates := []
        state := process_loop cfg rules env cid (initState db) msgs } := rfl

/-- C3 (counterexample): the claim's clause (1) — a post whose text
matches an active exclusion rule is dropped, even with a photo — fails
at a photo post with empty text and an active `exact` rule whose pattern
is the empty string: the text matches the rule under the rule-matching
semantics (`should_exclude_message` returns `true`), yet the classifier
collects the post, because exclusion rules are consulted only for
non-empty text. -/
theorem rule_order_counterexample :
    should_exclude_message "" [⟨"", "exact", true⟩] = true ∧
    should_collect_message ⟨50⟩ [⟨"", "exact", true⟩]
      ⟨1, some "", 0, Media.photo 7, none, none⟩ = (true, "has photo") := by
  decide

/-- C3 (amended): the Rule Evaluator decides by first-match-wins order:
(1) a post with NON-EMPTY text matching an active exclusion rule is
dropped, even if it carries a photo; (2) otherwise a photo-bearing post
is always collected; (3) otherwise a post with non-photo media is
collected iff its text length is at least the configured minimum;
(4) otherwise a text-only post is collected iff its text length is at
least the configured minimum (exactly the minimum collects, one short
drops). -/
theorem rule_order_decision (cfg : Config) (rules : List ExclusionRule) (m : Message) :
    ((m.text.getD "" ≠ "" ∧
        should_exclude_message (m.text.getD "") rules = true) →
      should_collect_message cfg rules m = (false, "matched exclusion rule")) ∧
    (¬(m.text.getD "" ≠ "" ∧
        should_exclude_message (m.text.getD "") rules = true) →
      ((has_photo m.media = true →
          should_collect_message cfg rules m = (true, "has photo")) ∧
        (has_photo m.media = false → media_present m.media = true →
          ((should_collect_message cfg rules m).1 = true ↔
            cfg.MIN_TEXT_LENGTH ≤ (m.text.getD "").length)) ∧
        (media_present m.media = false →
          ((should_collect_message cfg rules m).1 = true ↔
            cfg.MIN_TEXT_LENGTH ≤ (m.text.getD "").length)))) := by
  constructor
  · intro h
    unfold should_collect_message
    rw [if_pos h]
  · intro h
    refine ⟨?_, ?_, ?_⟩
    · intro hp
      unfold should_collect_message
      rw [if_neg h, if_pos hp]
    · intro hp hm
      unfold should_collect_message
      rw [if_neg h, if_neg (by simp [hp]), if_pos hm]
      by_cases hl : (m.text.getD "").length < cfg.MIN_TEXT_LENGTH
      · rw [if_pos hl]; simp; omega
      · rw [if_neg hl]; simp; omega
    · intro hm
      have hp : has_photo m.media = false := by
        cases hmed : m.media
        · rfl
        · rw [hmed] at hm; exact absurd hm (by simp [media_present])
        · rw [hmed] at hm; exact absurd hm (by simp [media_present])
      unfold should_collect_message
      rw [if_neg h, if_neg (by simp [hp]), if_neg (by simp [hm])]
      by_cases hl : (m.text.getD "").length < cfg.MIN_TEXT_LENGTH
      · rw [if_pos hl]; simp; omega
      · rw [if_neg hl]; simp; omega

/-- Witness for the amended C3 decision procedure: a text-only post whose
length equals the configured minimum is collected. -/
theorem rule_order_decision_witness :
    (should_collect_message ⟨2⟩ [] ⟨1, some "ab", 0, Media.nothing, none, none⟩).1
        = true ↔
      (2 : Nat) ≤ (((some "ab" : Option String)).getD "").length :=
  ((rule_order_decision ⟨2⟩ [] ⟨1, some "ab", 0, Media.nothing, none, none⟩).2
    (by decide)).2.2 (by decide)

/-- C6 (counterexample): a forwarded post can be dropped by the classify
stage — a forwarded text-only post shorter than the configured minimum is
discarded by the minimum-length rule. -/
theorem classify_forward_counterexample :
    ((⟨2, some "hi", 0, Media.nothing, some ⟨none, none⟩, none⟩ : Message).fwd_from).isSome
        = true ∧
    (should_collect_message ⟨50⟩ []
      ⟨2, some "hi", 0, Media.nothing, some ⟨none, none⟩, none⟩).1 = false := by
  decide

/-- C6 (amended): the classify stage ignores forwarding status entirely —
there is no forward-specific drop, and a forwarded post is dropped
exactly when the same post without forward metadata would be dropped;
forwarding is handled downstream of classification. -/
theorem classify_ignores_forward (cfg : Config) (rules : List ExclusionRule)
    (m : Message) (f : Option FwdFrom) :
    should_collect_message cfg rules { m with fwd_from := f } =
      should_collect_message cfg rules m := rfl

/-- C10: a post whose text is absent or empty is never dropped for
matching an exclusion rule — its classification does not depend on the
rule set at all (it equals the classification under an empty rule set)
and its drop reason is never the exclusion-rule reason. -/
theorem empty_text_never_excluded (cfg : Config) (rules : List ExclusionRule)
    (m : Message) (h : m.text = none ∨ m.text = some "") :
    should_collect_message cfg rules m = should_collect_message cfg [] m ∧
    (should_collect_message cfg rules m).2 ≠ "matched exclusion rule" := by
  have ht : m.text.getD "" = "" := by rcases h with h | h <;> simp [h]
  have hguard : ¬(m.text.getD "" ≠ "" ∧
      should_exclude_message (m.text.getD "") rules = true) := by
    rintro ⟨hne, -⟩; exact hne ht
  have hguard2 : ¬(m.text.getD "" ≠ "" ∧
      should_exclude_message (m.text.getD "") [] = true) := by
    rintro ⟨hne, -⟩; exact hne ht
  constructor
  · unfold should_collect_message
    rw [if_neg hguard, if_neg hguard2]
  · unfold should_collect_message
    rw [if_neg hguard]
    split
    · decide
    · split
      · split <;> decide
      · split <;> decide

/-- Witness for C10: an empty-text photo post with a non-trivial active
rule set classifies as it would with no rules, and is not excluded. -/
theorem empty_text_never_excluded_witness :
    should_collect_message ⟨50⟩ [⟨"x", "contains", false⟩]
        ⟨1, none, 0, Media.photo 3, none, none⟩ =
      should_collect_message ⟨50⟩ [] ⟨1, none, 0, Media.photo 3, none, none⟩ ∧
    (should_collect_message ⟨50⟩ [⟨"x", "contains", false⟩]
        ⟨1, none, 0, Media.photo 3, none, none⟩).2 ≠ "matched exclusion rule" :=
  empty_text_never_excluded ⟨50⟩ [⟨"x", "contains", false⟩]
    ⟨1, none, 0, Media.photo 3, none, none⟩ (Or.inl rfl)

/-- C4: forward suppression — a collected post carrying forward metadata
is persisted with text absent and no content fingerprint, triggers no
asset fetch (the fetched-file-id log is empty and the image table is
untouched) even when it has a photo and long text, and the forward
origin fields are stored exactly as the best-effort extraction produced
them (absent when extraction failed), extraction failure being non-fatal
(the post is still persisted and returned). -/
theorem forward_suppression (cfg : Config) (rules : List ExclusionRule) (env : Env)
    (db : DB) (m : Message) (cid : Int) (f : FwdFrom)
    (hf : m.fwd_from = some f)
    (hc : (should_collect_message cfg rules m).1 = true) :
    process_message cfg rules env db m cid =
      (insert_message db (build_record env db m cid),
        some (build_record env db m cid), []) ∧
    (build_record env db m cid).message_text = none ∧
    (build_record env db m cid).text_hash = none ∧
    (build_record env db m cid).is_forwarded = true ∧
    (build_record env db m cid).forward_from_channel_id = f.from_channel_id ∧
    (build_record env db m cid).forward_from_message_id = f.channel_post ∧
    (process_message cfg rules env db m cid).1.images = db.images := by
  have hpm : process_message cfg rules env db m cid =
      (insert_message db (build_record env db m cid),
        some (build_record env db m cid), []) := by
    unfold process_message
    simp [hc, hf]
  rcases build_record_forward env db m cid f hf with ⟨h1, h2, h3, _, h5, h6⟩
  exact ⟨hpm, h1, h2, h3, h5, h6, by rw [hpm]; exact insert_message_images ..⟩

/-- Witness for C4 at a forwarded photo post with long text: its stored
row has no text and no fingerprint. -/
theorem forward_suppression_witness :
    (build_record ⟨fun s => s, fun _ => none⟩ ⟨[], [], []⟩
        ⟨3, some "a sufficiently long piece of text that would pass every filter", 5,
          Media.photo 9, some ⟨some 42, some 7⟩, none⟩ 5).message_text = none ∧
    (build_record ⟨fun s => s, fun _ => none⟩ ⟨[], [], []⟩
        ⟨3, some "a sufficiently long piece of text that would pass every filter", 5,
          Media.photo 9, some ⟨some 42, some 7⟩, none⟩ 5).text_hash = none :=
  ⟨(forward_suppression ⟨50⟩ [] ⟨fun s => s, fun _ => none⟩ ⟨[], [], []⟩
      ⟨3, some "a sufficiently long piece of text that would pass every filter", 5,
        Media.photo 9, some ⟨some 42, some 7⟩, none⟩ 5 ⟨some 42, some 7⟩
      rfl (by decide)).2.1,
   (forward_suppression ⟨50⟩ [] ⟨fun s => s, fun _ => none⟩ ⟨[], [], []⟩
      ⟨3, some "a sufficiently long piece of text that would pass every filter", 5,
        Media.photo 9, some ⟨some 42, some 7⟩, none⟩ 5 ⟨some 42, some 7⟩
      rfl (by decide)).2.2.1⟩

theorem loop_preserves_invariant (cfg : Config) (rules : List ExclusionRule)
    (env : Env) (cid : Int) (st : LoopState) (msgs : List Message)
    (h0 : ∀ r ∈ st.db.messages, fingerprint_invariant r) :
    ∀ r ∈ (process_loop cfg rules env cid st msgs).db.messages,
      fingerprint_invariant r := by
  induction msgs generalizing st with
  | nil => exact h0
  | cons m ms ih =>
    rw [loop_cons]
    apply ih
    intro r hr
    rw [step_db] at hr
    rcases pm_messages_cases cfg rules env st.db m cid with hc | hc
    · rw [hc] at hr; exact h0 r hr
    · rw [hc] at hr
      rcases List.mem_append.mp hr with hr | hr
      · exact h0 r hr
      · rw [List.mem_singleton.mp hr]
        exact build_record_satisfies_invariant ..

/-- C7 (counterexample): a post marked duplicate is NOT stored with its
fingerprint absent — in a run where two posts share the text `"abc"`,
the second is persisted with `is_duplicate` set and `text_hash` still
equal to the fingerprint of `"abc"` (the source computes the hash before
the duplicate lookup and never clears it). -/
theorem fingerprint_presence_counterexample :
    (process_channel ⟨1⟩ [] ⟨fun s => s, fun _ => none⟩ ⟨[⟨5, "ch", none⟩], [], []⟩ 5
        ⟨[⟨1, some "abc", 10, Media.nothing, none, none⟩,
          ⟨2, some "abc", 20, Media.nothing, none, none⟩], true⟩).db.messages =
      [⟨5, 1, some "abc", 10, false, false, false, none, none, none, none,
          some "abc", none⟩,
        ⟨5, 2, none, 20, false, true, false, some 5, some 1, none, none,
          some "abc", none⟩] ∧
    (⟨5, 2, none, 20, false, true, false, some 5, some 1, none, none,
        some "abc", none⟩ : MessageRecord).is_duplicate = true ∧
    (⟨5, 2, none, 20, false, true, false, some 5, some 1, none, none,
        some "abc", none⟩ : MessageRecord).text_hash ≠ none := by
  decide

/-- C7 (amended): for every persisted post row, the content fingerprint
is non-null iff the post is non-forward and had non-empty original text —
that is, it either stores non-empty text or is marked duplicate.  (In
particular duplicates RETAIN the fingerprint; only forwards and
empty-text posts store none.)  Holds for every row after any channel
pass whose starting store already satisfies it. -/
theorem fingerprint_presence (cfg : Config) (rules : List ExclusionRule)
    (env : Env) (db : DB) (cid : Int) (stream : ChannelStream)
    (h0 : ∀ r ∈ db.messages, fingerprint_invariant r) :
    ∀ r ∈ (process_channel cfg rules env db cid stream).db.messages,
      fingerprint_invariant r := by
  intro r hr
  rw [pass_messages] at hr
  exact loop_preserves_invariant cfg rules env cid (initState db) stream.msgs h0 r hr

/-- Witness for C7 (amended): the duplicate row of the two-post run
satisfies the fingerprint-shape invariant. -/
theorem fingerprint_presence_witness :
    fingerprint_invariant
      ⟨5, 2, none, 20, false, true, false, some 5, some 1, none, none,
        some "abc", none⟩ :=
  fingerprint_presence ⟨1⟩ [] ⟨fun s => s, fun _ => none⟩ ⟨[⟨5, "ch", none⟩], [], []⟩ 5
    ⟨[⟨1, some "abc", 10, Media.nothing, none, none⟩,
      ⟨2, some "abc", 20, Media.nothing, none, none⟩], true⟩
    (by intro r hr; cases hr)
    ⟨5, 2, none, 20, false, true, false, some 5, some 1, none, none,
      some "abc", none⟩
    (by decide)

/-- C9: channel-failure isolation — when an exception aborts a channel
pass after the prefix `p` of its stream has been processed (modelled by
the stream `⟨p ++ q, false⟩`, the remainder `q` standing for what was
still yielded and processed before the error surfaced at the iterator:
for an error right after `p` take `q = []`), the pass leaves every
channel watermark unchanged and performs no watermark update; every
message and image row present before the pass is retained, every row
persisted by the processed prefix is retained (nothing is rolled back),
and the run proceeds to process all remaining channels from the store
the aborted pass left behind. -/
theorem channel_failure_isolation (cfg : Config) (rules : List ExclusionRule)
    (env : Env) (db : DB) (cid : Int) (p q : List Message) :
    (process_channel cfg rules env db cid ⟨p ++ q, false⟩).db.channels = db.channels ∧
    (process_channel cfg rules env db cid ⟨p ++ q, false⟩).watermark_updates = [] ∧
    (∃ t, (process_channel cfg rules env db cid ⟨p ++ q, false⟩).db.messages =
      db.messages ++ t) ∧
    (∃ t, (process_channel cfg rules env db cid ⟨p ++ q, false⟩).db.images =
      db.images ++ t) ∧
    (∃ t, (process_channel cfg rules env db cid ⟨p ++ q, false⟩).db.messages =
      (process_loop cfg rules env cid (initState db) p).db.messages ++ t) ∧
    (∀ rest, run_channels cfg rules env db ((cid, ⟨p ++ q, false⟩) :: rest) =
      run_channels cfg rules env
        (process_channel cfg rules env db cid ⟨p ++ q, false⟩).db rest) := by
  rw [pass_err]
  refine ⟨loop_channels .., rfl, loop_messages_append .., loop_images_append .., ?_,
    fun rest => rfl⟩
  rw [loop_append]
  exact loop_messages_append ..

/-- C2: watermark checkpointing — for a channel pass over an
oldest-to-newest (date-sorted) stream that completes without a fatal
error, where the channel row currently carries watermark `w` and every
fetched post is no older than `w`: if at least one post is collected the
watermark is updated exactly once, to the timestamp of the last
collected post, which equals the maximum timestamp among collected posts
and is at least `w`, all other channel rows being unchanged; if no post
is collected, no update happens and the channel table is unchanged. -/
theorem watermark_checkpoint (cfg : Config) (rules : List ExclusionRule)
    (env : Env) (db : DB) (cid : Int) (msgs : List Message) (w : Option Nat)
    (hch : ∀ c ∈ db.channels, c.telegram_channel_id = cid →
      c.last_fetched_datetime = w)
    (hsorted : List.Pairwise (fun a b : Message => a.date ≤ b.date) msgs)
    (hw : ∀ t0, w = some t0 → ∀ m ∈ msgs, t0 ≤ m.date) :
    (∃ T,
      last_collected_time cfg rules msgs none = some T ∧
      (∃ m ∈ msgs, (should_collect_message cfg rules m).1 = true ∧ T = m.date) ∧
      (∀ m ∈ msgs, (should_collect_message cfg rules m).1 = true → m.date ≤ T) ∧
      (∀ c ∈ db.channels, c.telegram_channel_id = cid →
        ∀ t0, c.last_fetched_datetime = some t0 → t0 ≤ T) ∧
      (process_channel cfg rules env db cid ⟨msgs, true⟩).watermark_updates
          = [(cid, T)] ∧
      (process_channel cfg rules env db cid ⟨msgs, true⟩).db.channels =
        db.channels.map (fun c =>
          if c.telegram_channel_id = cid then
            { c with last_fetched_datetime := some T }
          else c)) ∨
    ((∀ m ∈ msgs, (should_collect_message cfg rules m).1 = false) ∧
      (process_channel cfg rules env db cid ⟨msgs, true⟩).watermark_updates = [] ∧
      (process_channel cfg rules env db cid ⟨msgs, true⟩).db.channels
          = db.channels) := by
  have hlat : (process_loop cfg rules env cid (initState db) msgs).latest_message_time
      = last_collected_time cfg rules msgs none :=
    loop_latest cfg rules env cid (initState db) msgs
  cases hT : last_collected_time cfg rules msgs none with
  | none =>
    right
    rw [pass_ok_none cfg rules env db cid msgs (hlat.trans hT)]
    exact ⟨lct_none cfg rules msgs hT, rfl, loop_channels ..⟩
  | some T =>
    left
    refine ⟨T, rfl, ?_, lct_max cfg rules msgs T hsorted hT, ?_, ?_, ?_⟩
    · rcases lct_mem cfg rules msgs none T hT with hmem | hbad
      · exact hmem
      · exact absurd hbad (by simp)
    · intro c hc hcid t0 ht0
      have hwc : w = some t0 := (hch c hc hcid).symm.trans ht0
      rcases lct_mem cfg rules msgs none T hT with ⟨m, hm, -, hTm⟩ | hbad
      · rw [hTm]; exact hw t0 hwc m hm
      · exact absurd hbad (by simp)
    · rw [pass_ok_some cfg rules env db cid msgs T (hlat.trans hT)]
    · rw [pass_ok_some cfg rules env db cid msgs T (hlat.trans hT)]
      show (update_channel_last_fetched
        (process_loop cfg rules env cid (initState db) msgs).db cid T).channels = _
      rw [update_channel_channels, loop_channels]
      rfl

/-- Witness for C2 at the two-post run: the watermark is advanced once to
the second (latest collected) post's timestamp. -/
theorem watermark_checkpoint_witness :
    (process_channel ⟨1⟩ [] ⟨fun s => s, fun _ => none⟩ ⟨[⟨5, "ch", none⟩], [], []⟩ 5
        ⟨[⟨1, some "abc", 10, Media.nothing, none, none⟩,
          ⟨2, some "abc", 20, Media.nothing, none, none⟩], true⟩).watermark_updates
      = [(5, 20)] := by
  rcases watermark_checkpoint ⟨1⟩ [] ⟨fun s => s, fun _ => none⟩
      ⟨[⟨5, "ch", none⟩], [], []⟩ 5
      [⟨1, some "abc", 10, Media.nothing, none, none⟩,
        ⟨2, some "abc", 20, Media.nothing, none, none⟩] none
      (by intro c hc _; rcases List.mem_singleton.mp hc with rfl; rfl)
      (by decide)
      (by intro t0 ht0; cases ht0) with
    ⟨T, hT, -, -, -, hupd, -⟩ | ⟨hnone, -, -⟩
  · have : T = 20 := by
      have := hT
      rw [show last_collected_time ⟨1⟩ []
          [⟨1, some "abc", 10, Media.nothing, none, none⟩,
            ⟨2, some "abc", 20, Media.nothing, none, none⟩] none = some 20 from by decide]
        at this
      exact (Option.some.inj this).symm
    rw [this] at hupd
    exact hupd
  · exact absurd (hnone ⟨1, some "abc", 10, Media.nothing, none, none⟩
      (List.mem_cons_self _ _)) (by decide)

theorem find_duplicate_congr {db db2 : DB} (hm : db2.messages = db.messages)
    (hs : String) : find_duplicate db2 hs = find_duplicate db hs := by
  unfold find_duplicate
  rw [hm]

theorem message_key_exists_congr {db db2 : DB} (hm : db2.messages = db.messages)
    (cid : Int) (mid : Nat) :
    message_key_exists db2 cid mid = message_key_exists db cid mid := by
  unfold message_key_exists
  rw [hm]

theorem image_exists_congr {db db2 : DB} (hi : db2.images = db.images)
    (fid : Nat) : image_exists db2 fid = image_exists db fid := by
  unfold image_exists
  rw [hi]

theorem insert_message_messages_eq (db : DB) (r : MessageRecord) :
    (insert_message db r).messages =
      if message_key_exists db r.channel_id r.message_id then db.messages
      else db.messages ++ [r] := by
  unfold insert_message
  split <;> simp_all

theorem build_record_congr {env env2 : Env} (hh : env2.hashFn = env.hashFn)
    {db db2 : DB} (hm : db2.messages = db.messages) (m : Message) (cid : Int) :
    build_record env2 db2 m cid = build_record env db m cid := by
  unfold build_record
  rw [hh]
  simp only [find_duplicate_congr hm]

theorem pm_indep (cfg : Config) (rules : List ExclusionRule) {env env2 : Env}
    (hh : env2.hashFn = env.hashFn) {db db2 : DB}
    (hm : db2.messages = db.messages) (hch : db2.channels = db.channels)
    (m : Message) (cid : Int) :
    (process_message cfg rules env2 db2 m cid).1.messages =
      (process_message cfg rules env db m cid).1.messages ∧
    (process_message cfg rules env2 db2 m cid).1.channels =
      (process_message cfg rules env db m cid).1.channels ∧
    (process_message cfg rules env2 db2 m cid).2.1 =
      (process_message cfg rules env db m cid).2.1 := by
  have hbr : build_record env2 db2 m cid = build_record env db m cid :=
    build_record_congr hh hm m cid
  refine ⟨?_, ?_, ?_⟩
  · rw [pm_messages, pm_messages, hbr]
    by_cases hco : (should_collect_message cfg rules m).1 = true
    · rw [if_pos hco, if_pos hco, insert_message_messages_eq,
        insert_message_messages_eq, message_key_exists_congr hm, hm]
    · rw [if_neg hco, if_neg hco, hm]
  · rw [pm_channels, pm_channels, hch]
  · rw [pm_data, pm_data, hbr]

theorem loop_indep (cfg : Config) (rules : List ExclusionRule) {env env2 : Env}
    (hh : env2.hashFn = env.hashFn) (cid : Int) {st st2 : LoopState}
    (hm : st2.db.messages = st.db.messages)
    (hch : st2.db.channels = st.db.channels)
    (hlat : st2.latest_message_time = st.latest_message_time)
    (msgs : List Message) :
    (process_loop cfg rules env2 cid st2 msgs).db.messages =
      (process_loop cfg rules env cid st msgs).db.messages ∧
    (process_loop cfg rules env2 cid st2 msgs).db.channels =
      (process_loop cfg rules env cid st msgs).db.channels ∧
    (process_loop cfg rules env2 cid st2 msgs).latest_message_time =
      (process_loop cfg rules env cid st msgs).latest_message_time := by
  induction msgs generalizing st st2 with
  | nil => exact ⟨hm, hch, hlat⟩
  | cons m ms ih =>
    rw [loop_cons, loop_cons]
    rcases pm_indep cfg rules hh hm hch m cid with ⟨h1, h2, h3⟩
    apply ih
    · rw [step_db, step_db]; exact h1
    · rw [step_db, step_db]; exact h2
    · rw [step_latest, step_latest, hlat]

theorem pass_indep (cfg : Config) (rules : List ExclusionRule) {env env2 : Env}
    (hh : env2.hashFn = env.hashFn) (db : DB) (cid : Int)
    (stream : ChannelStream) :
    (process_channel cfg rules env2 db cid stream).watermark_updates =
      (process_channel cfg rules env db cid stream).watermark_updates ∧
    (process_channel cfg rules env2 db cid stream).db.channels =
      (process_channel cfg rules env db cid stream).db.channels := by
  obtain ⟨msgs, ok⟩ := stream
  rcases @loop_indep cfg rules env env2 hh cid (initState db) (initState db)
      rfl rfl rfl msgs with ⟨h1, h2, h3⟩
  cases ok with
  | false =>
    rw [pass_err, pass_err]
    exact ⟨rfl, h2⟩
  | true =>
    cases hl : (process_loop cfg rules env cid (initState db) msgs).latest_message_time with
    | none =>
      rw [pass_ok_none cfg rules env db cid msgs hl,
        pass_ok_none cfg rules env2 db cid msgs (h3.trans hl)]
      exact ⟨rfl, h2⟩
    | some T =>
      rw [pass_ok_some cfg rules env db cid msgs T hl,
        pass_ok_some cfg rules env2 db cid msgs T (h3.trans hl)]
      refine ⟨rfl, ?_⟩
      show (update_channel_last_fetched _ cid T).channels
        = (update_channel_last_fetched _ cid T).channels
      rw [update_channel_channels, update_channel_channels, h2]

theorem psp_eq (env : Env) (db : DB) (m : Message) (cid : Int) (fid : Nat)
    (hp : m.media = Media.photo fid) :
    process_single_photo env db m cid =
      if image_exists db fid then (db, [])
      else
        match env.fetch fid with
        | some d =>
          (insert_image db ⟨cid, m.id, fid, d.file_path, d.original_size,
            d.compressed_size, d.width, d.height⟩, [fid])
        | none => (db, [fid]) := by
  unfold process_single_photo
  rw [hp]

/-- C8: asset-failure atomicity — for a collected photo-bearing
non-forward post, the post row is persisted independently of anything
the asset pipeline does (the messages table after processing equals a
plain insert of the row, for ANY fetch outcome); when the asset pipeline
fails (fetch returns the failure value `none`, which is how the Python
handler reports download/decode errors instead of raising), the result
is exactly the persisted row with no image row added and the failed
fetch recorded; and the channel-level outcome — watermark updates and the
channel table — does not depend on the fetch oracle at all, so asset
failures never escalate to a channel-level failure. -/
theorem asset_failure_atomicity (cfg : Config) (rules : List ExclusionRule)
    (env : Env) (db : DB) (m : Message) (cid : Int) (fid : Nat)
    (hc : (should_collect_message cfg rules m).1 = true)
    (hp : m.media = Media.photo fid)
    (hf : m.fwd_from = none) :
    (process_message cfg rules env db m cid).1.messages =
      (insert_message db (build_record env db m cid)).messages ∧
    (env.fetch fid = none →
      process_message cfg rules env db m cid =
        (insert_message db (build_record env db m cid),
          some (build_record env db m cid),
          if image_exists db fid then [] else [fid]) ∧
      (process_message cfg rules env db m cid).1.images = db.images) ∧
    (∀ env2 : Env, env2.hashFn = env.hashFn →
      (process_message cfg rules env2 db m cid).1.messages =
        (process_message cfg rules env db m cid).1.messages ∧
      (process_message cfg rules env2 db m cid).2.1 =
        (process_message cfg rules env db m cid).2.1) ∧
    (∀ env2 : Env, env2.hashFn = env.hashFn → ∀ db2 cid2 stream,
      (process_channel cfg rules env2 db2 cid2 stream).watermark_updates =
        (process_channel cfg rules env db2 cid2 stream).watermark_updates ∧
      (process_channel cfg rules env2 db2 cid2 stream).db.channels =
        (process_channel cfg rules env db2 cid2 stream).db.channels) := by
  have hphoto : has_photo m.media = true := by rw [hp]; rfl
  have hr : process_message cfg rules env db m cid =
      ((process_single_photo env (insert_message db (build_record env db m cid)) m cid).1,
        some (build_record env db m cid),
        (process_single_photo env (insert_message db (build_record env db m cid)) m cid).2) := by
    unfold process_message
    rw [if_pos hc, if_pos (by rw [hphoto, hf]; rfl)]
  have hdb1img : (insert_message db (build_record env db m cid)).images = db.images :=
    insert_message_images ..
  have hie : image_exists (insert_message db (build_record env db m cid)) fid
      = image_exists db fid := image_exists_congr hdb1img fid
  refine ⟨?_, ?_, ?_, ?_⟩
  · rw [pm_messages, if_pos hc]
  · intro hfetch
    constructor
    · rw [hr, psp_eq env _ m cid fid hp, hie, hfetch]
      by_cases himg : image_exists db fid = true
      · rw [if_pos himg, if_pos himg]
      · rw [if_neg himg, if_neg himg]
    · rw [hr, psp_eq env _ m cid fid hp, hie, hfetch]
      by_cases himg : image_exists db fid = true
      · rw [if_pos himg]
        exact hdb1img
      · rw [if_neg himg]
        exact hdb1img
  · intro env2 hh
    rcases @pm_indep cfg rules env env2 hh db db rfl rfl m cid with ⟨h1, -, h3⟩
    exact ⟨h1, h3⟩
  · intro env2 hh db2 cid2 stream
    exact pass_indep cfg rules hh db2 cid2 stream

/-- Witness for C8: a photo post whose download fails is persisted with
the failed fetch recorded and no image row. -/
theorem asset_failure_atomicity_witness :
    process_message ⟨50⟩ [] ⟨fun s => s, fun _ => none⟩ ⟨[], [], []⟩
        ⟨1, some "", 0, Media.photo 7, none, none⟩ 5 =
      (insert_message ⟨[], [], []⟩
          (build_record ⟨fun s => s, fun _ => none⟩ ⟨[], [], []⟩
            ⟨1, some "", 0, Media.photo 7, none, none⟩ 5),
        some (build_record ⟨fun s => s, fun _ => none⟩ ⟨[], [], []⟩
          ⟨1, some "", 0, Media.photo 7, none, none⟩ 5),
        if image_exists ⟨[], [], []⟩ 7 then [] else [7]) :=
  ((asset_failure_atomicity ⟨50⟩ [] ⟨fun s => s, fun _ => none⟩ ⟨[], [], []⟩
      ⟨1, some "", 0, Media.photo 7, none, none⟩ 5 7
      (by decide) rfl rfl).2.1 rfl).1

theorem lookup_message_congr {db db2 : DB} (hm : db2.messages = db.messages)
    (cid : Int) (mid : Nat) :
    lookup_message db2 cid mid = lookup_message db cid mid := by
  unfold lookup_message
  rw [hm]

theorem find_duplicate_sound (dbq : DB) (hq : String) (pq : Int × Nat)
    (hfd : find_duplicate dbq hq = some pq) :
    ∃ r ∈ dbq.messages, r.is_duplicate = false ∧ r.text_hash = some hq ∧
      pq = (r.channel_id, r.message_id) := by
  unfold find_duplicate at hfd
  cases hfind : dbq.messages.find?
      (fun m => decide (m.text_hash = some hq ∧ m.is_duplicate = false)) with
  | none => rw [hfind] at hfd; exact absurd hfd (by simp)
  | some rec0 =>
    rw [hfind] at hfd
    have hp := List.find?_some hfind
    simp only [decide_eq_true_eq] at hp
    exact ⟨rec0, List.mem_of_find?_eq_some hfind, hp.2, hp.1,
      (Option.some.inj hfd).symm⟩

theorem step_insert_original (cfg : Config) (rules : List ExclusionRule) (env : Env)
    (cid : Int) (st : LoopState) (m : Message) (t : String)
    (ht : m.text = some t) (hne : t ≠ "") (hf : m.fwd_from = none)
    (hc : (should_collect_message cfg rules m).1 = true)
    (hno : no_original_with_hash st.db (env.hashFn t))
    (hfresh : message_key_exists st.db cid m.id = false) :
    ∃ r1, (process_step cfg rules env cid st m).db.messages
        = st.db.messages ++ [r1] ∧
      lookup_message (process_step cfg rules env cid st m).db cid m.id = some r1 ∧
      find_duplicate (process_step cfg rules env cid st m).db (env.hashFn t)
        = some (cid, m.id) ∧
      r1.is_duplicate = false ∧ r1.duplicate_of_channel_id = none ∧
      r1.duplicate_of_message_id = none ∧ r1.message_text = some t ∧
      r1.text_hash = some (env.hashFn t) := by
  have hfd0 : find_duplicate st.db (env.hashFn t) = none :=
    find_duplicate_of_no_original hno
  rcases build_record_original env st.db m cid t hf ht hne hfd0 with
    ⟨h_text, h_hash, h_dup, -, h_dc, h_dm⟩
  have hmsgs : (process_step cfg rules env cid st m).db.messages =
      st.db.messages ++ [build_record env st.db m cid] := by
    rw [step_db, pm_messages, if_pos hc, insert_message_of_fresh _ _ hfresh]
  have hlook : lookup_message (process_step cfg rules env cid st m).db cid m.id =
      some (build_record env st.db m cid) :=
    lookup_message_append_self _ hmsgs hfresh
  have hfd1 : find_duplicate (process_step cfg rules env cid st m).db (env.hashFn t) =
      some (cid, m.id) := by
    unfold find_duplicate
    rw [hmsgs, List.find?_append]
    have hnone : st.db.messages.find?
        (fun r => decide (r.text_hash = some (env.hashFn t) ∧ r.is_duplicate = false))
          = none := by
      rw [List.find?_eq_none]
      intro r hr
      simp only [decide_eq_true_eq]
      exact hno r hr
    rw [hnone]
    have hpos : (fun r => decide (r.text_hash = some (env.hashFn t) ∧
        r.is_duplicate = false)) (build_record env st.db m cid) = true := by
      simp only [decide_eq_true_eq]
      exact ⟨h_hash, h_dup⟩
    have hsingle : List.find?
        (fun r => decide (r.text_hash = some (env.hashFn t) ∧ r.is_duplicate = false))
        [build_record env st.db m cid] = some (build_record env st.db m cid) :=
      List.find?_cons_of_pos _ hpos
    rw [hsingle]
    rfl
  exact ⟨build_record env st.db m cid, hmsgs, hlook, hfd1, h_dup, h_dc, h_dm,
    h_text, h_hash⟩

theorem step_insert_duplicate (cfg : Config) (rules : List ExclusionRule) (env : Env)
    (cid : Int) (st : LoopState) (m : Message) (t : String) (dc : Int) (dm : Nat)
    (ht : m.text = some t) (hne : t ≠ "") (hf : m.fwd_from = none)
    (hc : (should_collect_message cfg rules m).1 = true)
    (hfd : find_duplicate st.db (env.hashFn t) = some (dc, dm))
    (hfresh : message_key_exists st.db cid m.id = false) :
    ∃ r2, (process_step cfg rules env cid st m).db.messages
        = st.db.messages ++ [r2] ∧
      lookup_message (process_step cfg rules env cid st m).db cid m.id = some r2 ∧
      r2.is_duplicate = true ∧ r2.duplicate_of_channel_id = some dc ∧
      r2.duplicate_of_message_id = some dm ∧ r2.message_text = none := by
  rcases build_record_duplicate env st.db m cid t dc dm hf ht hne hfd with
    ⟨h_text, -, h_dup, -, h_dc, h_dm⟩
  have hmsgs : (process_step cfg rules env cid st m).db.messages =
      st.db.messages ++ [build_record env st.db m cid] := by
    rw [step_db, pm_messages, if_pos hc, insert_message_of_fresh _ _ hfresh]
  exact ⟨build_record env st.db m cid, hmsgs,
    lookup_message_append_self _ hmsgs hfresh, h_dup, h_dc, h_dm, h_text⟩

/-- C1: duplicate tie-break — in a channel pass over
`pre ++ m1 :: (mid ++ [m2])` where `m1` and `m2` are non-forward,
collected posts with the same non-empty text `t`, the store holds no
prior original with `t`'s fingerprint, the keys involved are fresh and
nothing in `pre` carries that fingerprint: the earlier post `m1` is
persisted as the original (not a duplicate, no duplicate-target, text
and fingerprint retained) and the later post `m2` is persisted as a
duplicate pointing at `(cid, m1.id)` with its text absent; moreover the
duplicate lookup only ever answers with a row whose `is_duplicate` flag
is false. -/
theorem duplicate_tiebreak (cfg : Config) (rules : List ExclusionRule) (env : Env)
    (db : DB) (cid : Int) (pre mid : List Message) (m1 m2 : Message) (t : String)
    (ht1 : m1.text = some t) (ht2 : m2.text = some t) (hne : t ≠ "")
    (hf1 : m1.fwd_from = none) (hf2 : m2.fwd_from = none)
    (hc1 : (should_collect_message cfg rules m1).1 = true)
    (hc2 : (should_collect_message cfg rules m2).1 = true)
    (hno : no_original_with_hash db (env.hashFn t))
    (hfresh1 : message_key_exists db cid m1.id = false)
    (hfresh2 : message_key_exists db cid m2.id = false)
    (hid : m1.id ≠ m2.id)
    (hpre_id : ∀ m ∈ pre, m.id ≠ m1.id ∧ m.id ≠ m2.id)
    (hmid_id : ∀ m ∈ mid, m.id ≠ m2.id)
    (hpre_hash : ∀ m ∈ pre, m.fwd_from = none → m.text.getD "" ≠ "" →
      env.hashFn (m.text.getD "") ≠ env.hashFn t) :
    (∃ r1,
      lookup_message (process_channel cfg rules env db cid
          ⟨pre ++ m1 :: (mid ++ [m2]), true⟩).db cid m1.id = some r1 ∧
      r1.is_duplicate = false ∧
      r1.duplicate_of_channel_id = none ∧ r1.duplicate_of_message_id = none ∧
      r1.message_text = some t ∧ r1.text_hash = some (env.hashFn t)) ∧
    (∃ r2,
      lookup_message (process_channel cfg rules env db cid
          ⟨pre ++ m1 :: (mid ++ [m2]), true⟩).db cid m2.id = some r2 ∧
      r2.is_duplicate = true ∧
      r2.duplicate_of_channel_id = some cid ∧
      r2.duplicate_of_message_id = some m1.id ∧
      r2.message_text = none) ∧
    (∀ (dbq : DB) (hq : String) (pq : Int × Nat),
      find_duplicate dbq hq = some pq →
      ∃ r ∈ dbq.messages, r.is_duplicate = false ∧ r.text_hash = some hq ∧
        pq = (r.channel_id, r.message_id)) := by
  -- facts after the pre-scan
  have hA_no : no_original_with_hash
      (process_loop cfg rules env cid (initState db) pre).db (env.hashFn t) :=
    loop_preserves_no_original cfg rules env cid (env.hashFn t) (initState db) pre
      hpre_hash hno
  have hA_f1 : message_key_exists
      (process_loop cfg rules env cid (initState db) pre).db cid m1.id = false :=
    loop_preserves_fresh cfg rules env cid cid m1.id (initState db) pre
      (fun m hm hcon => (hpre_id m hm).1 hcon.2) hfresh1
  have hA_f2 : message_key_exists
      (process_loop cfg rules env cid (initState db) pre).db cid m2.id = false :=
    loop_preserves_fresh cfg rules env cid cid m2.id (initState db) pre
      (fun m hm hcon => (hpre_id m hm).2 hcon.2) hfresh2
  -- m1 is inserted as the original
  rcases step_insert_original cfg rules env cid
      (process_loop cfg rules env cid (initState db) pre) m1 t ht1 hne hf1 hc1
      hA_no hA_f1 with
    ⟨r1, hBmsgs, hlookB, hfdB, hr1_dup, hr1_dc, hr1_dm, hr1_text, hr1_hash⟩
  -- m2's key stays fresh through m1's step
  have hBf2 : message_key_exists (process_step cfg rules env cid
      (process_loop cfg rules env cid (initState db) pre) m1).db cid m2.id = false :=
    step_preserves_fresh cfg rules env cid cid m2.id
      (process_loop cfg rules env cid (initState db) pre) m1
      (fun hcon => hid hcon.2) hA_f2
  -- the mid-scan preserves everything we need
  have hlookC : lookup_message (process_loop cfg rules env cid
      (process_step cfg rules env cid
        (process_loop cfg rules env cid (initState db) pre) m1) mid).db
      cid m1.id = some r1 :=
    loop_lookup_stable cfg rules env cid _ mid hlookB
  have hfdC : find_duplicate (process_loop cfg rules env cid
      (process_step cfg rules env cid
        (process_loop cfg rules env cid (initState db) pre) m1) mid).db
      (env.hashFn t) = some (cid, m1.id) :=
    loop_find_duplicate_stable cfg rules env cid _ mid hfdB
  have hCf2 : message_key_exists (process_loop cfg rules env cid
      (process_step cfg rules env cid
        (process_loop cfg rules env cid (initState db) pre) m1) mid).db
      cid m2.id = false :=
    loop_preserves_fresh cfg rules env cid cid m2.id _ mid
      (fun m hm hcon => hmid_id m hm hcon.2) hBf2
  -- m2 is inserted as a duplicate pointing at m1
  rcases step_insert_duplicate cfg rules env cid
      (process_loop cfg rules env cid
        (process_step cfg rules env cid
          (process_loop cfg rules env cid (initState db) pre) m1) mid)
      m2 t cid m1.id ht2 hne hf2 hc2 hfdC hCf2 with
    ⟨r2, hDmsgs, hlookD2, hr2_dup, hr2_dc, hr2_dm, hr2_text⟩
  have hlookD1 : lookup_message (process_step cfg rules env cid
      (process_loop cfg rules env cid
        (process_step cfg rules env cid
          (process_loop cfg rules env cid (initState db) pre) m1) mid) m2).db
      cid m1.id = some r1 :=
    lookup_message_mono _ hDmsgs hlookC
  -- the whole pass decomposes into exactly these stages
  have hfinal : (process_channel cfg rules env db cid
      ⟨pre ++ m1 :: (mid ++ [m2]), true⟩).db.messages =
      (process_step cfg rules env cid
        (process_loop cfg rules env cid
          (process_step cfg rules env cid
            (process_loop cfg rules env cid (initState db) pre) m1) mid) m2).db.messages := by
    rw [pass_messages]
    show (process_loop cfg rules env cid (initState db)
      (pre ++ m1 :: (mid ++ [m2]))).db.messages = _
    rw [loop_append, loop_cons, loop_append, loop_cons, loop_nil]
  refine ⟨⟨r1, ?_, hr1_dup, hr1_dc, hr1_dm, hr1_text, hr1_hash⟩,
    ⟨r2, ?_, hr2_dup, hr2_dc, hr2_dm, hr2_text⟩, find_duplicate_sound⟩
  · rw [lookup_message_congr hfinal]
    exact hlookD1
  · rw [lookup_message_congr hfinal]
    exact hlookD2

/-- Witness for C1: in the concrete two-post run, the later post is
stored as a duplicate pointing at the earlier one, with text absent. -/
theorem duplicate_tiebreak_witness :
    ∃ r2,
      lookup_message (process_channel ⟨1⟩ [] ⟨fun s => s, fun _ => none⟩
          ⟨[⟨5, "ch", none⟩], [], []⟩ 5
          ⟨[⟨1, some "abc", 10, Media.nothing, none, none⟩,
            ⟨2, some "abc", 20, Media.nothing, none, none⟩], true⟩).db 5 2 = some r2 ∧
      r2.is_duplicate = true ∧
      r2.duplicate_of_channel_id = some 5 ∧
      r2.duplicate_of_message_id = some 1 ∧
      r2.message_text = none :=
  (duplicate_tiebreak ⟨1⟩ [] ⟨fun s => s, fun _ => none⟩ ⟨[⟨5, "ch", none⟩], [], []⟩ 5
    [] [] ⟨1, some "abc", 10, Media.nothing, none, none⟩
    ⟨2, some "abc", 20, Media.nothing, none, none⟩ "abc"
    rfl rfl (by decide) rfl rfl (by decide) (by decide)
    (by intro r hr; cases hr)
    (by decide) (by decide) (by decide)
    (by intro m hm; cases hm)
    (by intro m hm; cases hm)
    (by intro m hm; cases hm)).2.1

theorem image_exists_insert_self (db : DB) (r : ImageRecord) :
    image_exists (insert_image db r) r.file_id = true := by
  unfold insert_image
  split
  · next h => exact h
  · unfold image_exists
    dsimp only
    rw [List.any_append]
    simp

theorem pm_key_self (cfg : Config) (rules : List ExclusionRule) (env : Env)
    (db : DB) (m : Message) (cid : Int)
    (hc : (should_collect_message cfg rules m).1 = true) :
    message_key_exists (process_message cfg rules env db m cid).1 cid m.id = true := by
  unfold message_key_exists
  rw [pm_messages, if_pos hc, insert_message_messages_eq]
  simp only [build_record_channel_id, build_record_message_id]
  by_cases hk : message_key_exists db cid m.id = true
  · rw [if_pos hk]
    unfold message_key_exists at hk
    exact hk
  · rw [if_neg hk]
    rw [List.any_append]
    have hone : [build_record env db m cid].any
        (fun r => decide (r.channel_id = cid ∧ r.message_id = m.id)) = true := by
      simp [build_record_channel_id, build_record_message_id]
    rw [hone, Bool.or_true]

theorem pm_photo_eq (cfg : Config) (rules : List ExclusionRule) (env : Env)
    (db : DB) (m : Message) (cid : Int) (fid : Nat)
    (hc : (should_collect_message cfg rules m).1 = true)
    (hp : m.media = Media.photo fid) (hf : m.fwd_from = none) :
    process_message cfg rules env db m cid =
      ((process_single_photo env
          (insert_message db (build_record env db m cid)) m cid).1,
        some (build_record env db m cid),
        (process_single_photo env
          (insert_message db (build_record env db m cid)) m cid).2) := by
  unfold process_message
  rw [if_pos hc,
    if_pos (show (has_photo m.media && !m.fwd_from.isSome) = true by rw [hp, hf]; rfl)]

theorem pm_photo_establish (cfg : Config) (rules : List ExclusionRule) (env : Env)
    (db : DB) (m : Message) (cid : Int) (fid : Nat)
    (hc : (should_collect_message cfg rules m).1 = true)
    (hp : m.media = Media.photo fid) (hf : m.fwd_from = none) :
    image_exists (process_message cfg rules env db m cid).1 fid = true ∨
      env.fetch fid = none := by
  rw [pm_photo_eq cfg rules env db m cid fid hc hp hf]
  dsimp only
  rw [psp_eq env _ m cid fid hp]
  by_cases hie : image_exists (insert_message db (build_record env db m cid)) fid = true
  · rw [if_pos hie]; exact Or.inl hie
  · rw [if_neg hie]
    cases hfe : env.fetch fid with
    | none => exact Or.inr rfl
    | some d =>
      dsimp only
      exact Or.inl (image_exists_insert_self
        (insert_message db (build_record env db m cid)) _)

theorem loop_establishes (cfg : Config) (rules : List ExclusionRule) (env : Env)
    (cid : Int) (st : LoopState) (msgs : List Message) :
    ∀ m ∈ msgs, (should_collect_message cfg rules m).1 = true →
      message_key_exists (process_loop cfg rules env cid st msgs).db cid m.id = true ∧
      (∀ fid, m.media = Media.photo fid → m.fwd_from = none →
        image_exists (process_loop cfg rules env cid st msgs).db fid = true ∨
          env.fetch fid = none) := by
  induction msgs generalizing st with
  | nil => intro m hm; cases hm
  | cons m0 ms ih =>
    intro m hm hc
    rcases List.mem_cons.mp hm with heq | hm2
    · subst heq
      rw [loop_cons]
      constructor
      · have h1 : message_key_exists
            (process_step cfg rules env cid st m).db cid m.id = true := by
          rw [step_db]
          exact pm_key_self cfg rules env st.db m cid hc
        rcases loop_messages_append cfg rules env cid
          (process_step cfg rules env cid st m) ms with ⟨t, ht⟩
        exact message_key_exists_mono t ht h1
      · intro fid hp hf
        have h2 : image_exists (process_step cfg rules env cid st m).db fid = true ∨
            env.fetch fid = none := by
          rw [step_db]
          exact pm_photo_establish cfg rules env st.db m cid fid hc hp hf
        rcases h2 with h2 | h2
        · left
          rcases loop_images_append cfg rules env cid
            (process_step cfg rules env cid st m) ms with ⟨t, ht⟩
          exact image_exists_mono t ht h2
        · exact Or.inr h2
    · rw [loop_cons]
      exact ih (process_step cfg rules env cid st m0) m hm2 hc

theorem pm_noop (cfg : Config) (rules : List ExclusionRule) (env : Env)
    (db : DB) (m : Message) (cid : Int)
    (hkey : (should_collect_message cfg rules m).1 = true →
      message_key_exists db cid m.id = true)
    (himg : ∀ fid, m.media = Media.photo fid → m.fwd_from = none →
      (should_collect_message cfg rules m).1 = true →
      image_exists db fid = true ∨ env.fetch fid = none) :
    (process_message cfg rules env db m cid).1 = db := by
  by_cases hc : (should_collect_message cfg rules m).1 = true
  · have hins : insert_message db (build_record env db m cid) = db :=
      insert_message_of_key db _ (hkey hc)
    unfold process_message
    rw [if_pos hc]
    by_cases hpf : (has_photo m.media && !m.fwd_from.isSome) = true
    · rw [if_pos hpf]
      dsimp only
      have hp : ∃ fid, m.media = Media.photo fid := by
        cases hmedia : m.media with
        | photo fid => exact ⟨fid, rfl⟩
        | nothing => rw [hmedia] at hpf; exact absurd hpf (by simp [has_photo])
        | other => rw [hmedia] at hpf; exact absurd hpf (by simp [has_photo])
      rcases hp with ⟨fid, hp⟩
      have hf : m.fwd_from = none := by
        cases hfw : m.fwd_from with
        | none => rfl
        | some f => rw [hfw] at hpf; exact absurd hpf (by simp)
      rw [hins, psp_eq env db m cid fid hp]
      by_cases hie : image_exists db fid = true
      · rw [if_pos hie]
      · rw [if_neg hie]
        rcases himg fid hp hf hc with h | h
        · exact absurd h hie
        · rw [h]
    · rw [if_neg hpf]
      dsimp only
      exact hins
  · have hcf : (should_collect_message cfg rules m).1 = false := by
      revert hc
      cases (should_collect_message cfg rules m).1 <;> simp
    rw [pm_not_collected cfg rules env db m cid hcf]

theorem loop_noop (cfg : Config) (rules : List ExclusionRule) (env : Env)
    (cid : Int) (msgs : List Message) (st : LoopState)
    (hcond : ∀ m ∈ msgs,
      ((should_collect_message cfg rules m).1 = true →
        message_key_exists st.db cid m.id = true) ∧
      (∀ fid, m.media = Media.photo fid → m.fwd_from = none →
        (should_collect_message cfg rules m).1 = true →
        image_exists st.db fid = true ∨ env.fetch fid = none)) :
    (process_loop cfg rules env cid st msgs).db = st.db := by
  induction msgs generalizing st with
  | nil => rfl
  | cons m ms ih =>
    rw [loop_cons]
    have hstep : (process_step cfg rules env cid st m).db = st.db := by
      rw [step_db]
      exact pm_noop cfg rules env st.db m cid
        (hcond m (List.mem_cons_self m ms)).1 (hcond m (List.mem_cons_self m ms)).2
    have hrest := ih (process_step cfg rules env cid st m)
      (fun x hx => by rw [hstep]; exact hcond x (List.mem_cons_of_mem m hx))
    rw [hrest, hstep]

/-- C5: idempotent replay — (i) inserting a message row whose
`(channel_id, message_id)` key already exists is a no-op (the store is
returned unchanged, no error); (ii) inserting an image row whose
`file_id` already exists is a no-op; (iii) when an image row already
exists for a photo's file id, the photo path returns immediately with
no fetch recorded; and (iv) running a channel pass twice over the same
backlog yields exactly the same message and image rows as one run. -/
theorem idempotent_replay :
    (∀ (db : DB) (r : MessageRecord),
      message_key_exists db r.channel_id r.message_id = true →
      insert_message db r = db) ∧
    (∀ (db : DB) (r : ImageRecord),
      image_exists db r.file_id = true → insert_image db r = db) ∧
    (∀ (env : Env) (db : DB) (m : Message) (cid : Int) (fid : Nat),
      m.media = Media.photo fid → image_exists db fid = true →
      process_single_photo env db m cid = (db, [])) ∧
    (∀ (cfg : Config) (rules : List ExclusionRule) (env : Env) (db : DB)
      (cid : Int) (msgs : List Message),
      (process_channel cfg rules env
          (process_channel cfg rules env db cid ⟨msgs, true⟩).db cid
          ⟨msgs, true⟩).db.messages =
        (process_channel cfg rules env db cid ⟨msgs, true⟩).db.messages ∧
      (process_channel cfg rules env
          (process_channel cfg rules env db cid ⟨msgs, true⟩).db cid
          ⟨msgs, true⟩).db.images =
        (process_channel cfg rules env db cid ⟨msgs, true⟩).db.images) := by
  refine ⟨insert_message_of_key, insert_image_of_exists, ?_, ?_⟩
  · intro env db m cid fid hp hie
    rw [psp_eq env db m cid fid hp, if_pos hie]
  · intro cfg rules env db cid msgs
    have hd1m : (process_channel cfg rules env db cid ⟨msgs, true⟩).db.messages =
        (process_loop cfg rules env cid (initState db) msgs).db.messages :=
      pass_messages ..
    have hd1i : (process_channel cfg rules env db cid ⟨msgs, true⟩).db.images =
        (process_loop cfg rules env cid (initState db) msgs).db.images :=
      pass_images ..
    have hest := loop_establishes cfg rules env cid (initState db) msgs
    have hcond : ∀ m ∈ msgs,
        ((should_collect_message cfg rules m).1 = true →
          message_key_exists
            (initState (process_channel cfg rules env db cid ⟨msgs, true⟩).db).db
            cid m.id = true) ∧
        (∀ fid, m.media = Media.photo fid → m.fwd_from = none →
          (should_collect_message cfg rules m).1 = true →
          image_exists
            (initState (process_channel cfg rules env db cid ⟨msgs, true⟩).db).db
            fid = true ∨ env.fetch fid = none) := by
      intro m hm
      constructor
      · intro hc
        have hx := (hest m hm hc).1
        rw [← message_key_exists_congr hd1m cid m.id] at hx
        exact hx
      · intro fid hp hf hc
        rcases (hest m hm hc).2 fid hp hf with h | h
        · left
          rw [← image_exists_congr hd1i fid] at h
          exact h
        · exact Or.inr h
    have hnoop := loop_noop cfg rules env cid msgs
      (initState (process_channel cfg rules env db cid ⟨msgs, true⟩).db) hcond
    constructor
    · rw [pass_messages, hnoop]
      rfl
    · rw [pass_images, hnoop]
      rfl

/-- Witness for C5: re-inserting an existing message row leaves the
store unchanged, and an existing image short-circuits the photo path. -/
theorem idempotent_replay_witness :
    insert_message
        ⟨[], [⟨5, 1, some "abc", 10, false, false, false, none, none, none, none,
          some "abc", none⟩], []⟩
        ⟨5, 1, some "abc", 10, false, false, false, none, none, none, none,
          some "abc", none⟩ =
      ⟨[], [⟨5, 1, some "abc", 10, false, false, false, none, none, none, none,
        some "abc", none⟩], []⟩ ∧
    process_single_photo ⟨fun s => s, fun _ => none⟩
        ⟨[], [], [⟨5, 1, 7, "p", 1, 1, 1, 1⟩]⟩
        ⟨1, some "", 0, Media.photo 7, none, none⟩ 5 =
      (⟨[], [], [⟨5, 1, 7, "p", 1, 1, 1, 1⟩]⟩, []) :=
  ⟨idempotent_replay.1
      ⟨[], [⟨5, 1, some "abc", 10, false, false, false, none, none, none, none,
        some "abc", none⟩], []⟩
      ⟨5, 1, some "abc", 10, false, false, false, none, none, none, none,
        some "abc", none⟩ (by decide),
    idempotent_replay.2.2.1 ⟨fun s => s, fun _ => none⟩
      ⟨[], [], [⟨5, 1, 7, "p", 1, 1, 1, 1⟩]⟩
      ⟨1, some "", 0, Media.photo 7, none, none⟩ 5 7 rfl (by decide)⟩
